import Mathlib

/-!
Verification of the dashcam manager's transfer and coordination engine.

The definitions below are shallow embeddings of the Python sources:
`src/api/models.py` (file records and download tasks),
`src/services/download_manager.py` (the download orchestrator),
`dashcam_python/src/ui/video_grid.py` (the thumbnail pipeline) and
`dashcam_python/src/services/cache_manager.py` (the thumbnail cache).
-/

namespace DashcamManager

/-! ## String helpers (Python `in`, prefix tests on character lists) -/

/-- Does the first list occur at the head of the second?  (Used to embed
Python substring tests.) -/
def leadsWith : List Char → List Char → Bool
  | [], _ => true
  | _ :: _, [] => false
  | a :: as, b :: bs => (a == b) && leadsWith as bs

/-- Does the first list occur contiguously anywhere in the second?
Embeds Python's `needle in haystack` on strings. -/
def occursIn (needle : List Char) : List Char → Bool
  | [] => needle.isEmpty
  | b :: bs => leadsWith needle (b :: bs) || occursIn needle bs

/-- Python's `needle in haystack` for strings. -/
def strContainsB (haystack needle : String) : Bool :=
  occursIn needle.toList haystack.toList

/-- Split a character list at every occurrence of `c`; like Python's
`str.split(sep)`, adjacent separators produce empty segments and the
empty input yields one empty segment. -/
def splitOnChar (c : Char) : List Char → List (List Char)
  | [] => [[]]
  | x :: rest =>
    let r := splitOnChar c rest
    if x == c then [] :: r
    else
      match r with
      | [] => [[x]]
      | seg :: segs => (x :: seg) :: segs

/-- Last `'/'`-separated segment of a path: Python's `path.split('/')[-1]`. -/
def lastSegment (path : String) : String :=
  String.mk ((splitOnChar '/' path.toList).getLastD [])

/-! ## Data model (`src/api/models.py`) -/

/-- The six wall-clock fields Python's `datetime(...)` is built from in
`VideoFile.from_filename`. -/
structure Date6 where
  year : Nat
  month : Nat
  day : Nat
  hour : Nat
  minute : Nat
  second : Nat
  deriving DecidableEq, Repr

/-- `VideoFile` dataclass.  `size_mb` and `duration` default to `None`. -/
structure VideoFile where
  path : String
  filename : String
  timestamp : Date6
  sizeMb : Option ℚ := none
  duration : Option Nat := none
  camera : String := "front"
  type : String := "normal"
  deriving DecidableEq, Repr

/-- `DownloadTask` dataclass.  Python compares these field-by-field
(dataclass equality), which the derived `DecidableEq` mirrors. -/
structure DownloadTask where
  file : VideoFile
  status : String
  progress : ℚ := 0
  speedMbps : ℚ := 0
  error : Option String := none
  localPath : Option String := none
  deriving DecidableEq, Repr

/-! ## Filename parsing (`VideoFile.from_filename`)

The Python code runs `re.match` with the pattern
`(\d{4})_(\d{2})_(\d{2})_(\d{6})_\d{2}\.(TS|THM|TXT)` — note `re.match`
anchors only at the start of the string, and the pattern carries no `$`.
The regex is a fixed-length sequence of digit runs and literals followed by
a three-way alternation, so it is decoded here as a deterministic
combinator chain with the same backtracking order. -/

/-- Consume exactly `n` ASCII digits, returning them and the rest. -/
def takeDigits : Nat → List Char → Option (List Char × List Char)
  | 0, cs => some ([], cs)
  | _ + 1, [] => none
  | n + 1, c :: cs =>
    if c.isDigit then
      (takeDigits n cs).map (fun p => (c :: p.1, p.2))
    else
      none

/-- Consume one expected literal character. -/
def expectChar (c : Char) : List Char → Option (List Char)
  | [] => none
  | x :: rest => if x == c then some rest else none

/-- The `(TS|THM|TXT)` alternation, in the regex engine's trial order;
`re.match` permits trailing characters, which are returned unconsumed. -/
def matchExt : List Char → Option (String × List Char)
  | 'T' :: 'S' :: rest => some ("TS", rest)
  | 'T' :: 'H' :: 'M' :: rest => some ("THM", rest)
  | 'T' :: 'X' :: 'T' :: rest => some ("TXT", rest)
  | _ => none

/-- Numeric value of a digit run (Python `int(...)` on the group). -/
def digitsVal (ds : List Char) : Nat :=
  ds.foldl (fun a c => 10 * a + (c.toNat - '0'.toNat)) 0

/-- The fixed-length body of the pattern up to and including the literal
dot: digit groups and separators, yielding the
`(year, month, day, hour, minute, second)` integers (sliced exactly as
the Python code slices `time_str`) and the characters left for the
extension alternation. -/
def matchCore (cs : List Char) : Option ((Nat × Nat × Nat × Nat × Nat × Nat) × List Char) := do
  let (ys, r1) ← takeDigits 4 cs
  let r2 ← expectChar '_' r1
  let (mos, r3) ← takeDigits 2 r2
  let r4 ← expectChar '_' r3
  let (ds, r5) ← takeDigits 2 r4
  let r6 ← expectChar '_' r5
  let (ts, r7) ← takeDigits 6 r6
  let r8 ← expectChar '_' r7
  let (_, r9) ← takeDigits 2 r8
  let r10 ← expectChar '.' r9
  some ((digitsVal ys, digitsVal mos, digitsVal ds,
         digitsVal (ts.take 2), digitsVal ((ts.drop 2).take 2), digitsVal (ts.drop 4)),
        r10)

/-- The regex match of `VideoFile.from_filename`.  `none` means the regex
did not match; trailing characters after the extension are ignored
because `re.match` only anchors the start. -/
def matchFilename (filename : String) : Option (Nat × Nat × Nat × Nat × Nat × Nat) :=
  match matchCore filename.toList with
  | some (fields, rest) => (matchExt rest).map fun _ => fields
  | none => none

/-- Number of days in a month, Gregorian rules, as Python's `datetime`
uses to validate its arguments. -/
def daysInMonth (y m : Nat) : Nat :=
  if m = 2 then
    if (y % 4 = 0 && y % 100 ≠ 0) || y % 400 = 0 then 29 else 28
  else if m = 4 || m = 6 || m = 9 || m = 11 then 30 else 31

/-- Python's `datetime(year, month, day, hour, minute, second)` raises
`ValueError` outside these bounds (`MINYEAR = 1`, `MAXYEAR = 9999`). -/
def validDateTime (y mo d h mi s : Nat) : Bool :=
  decide (1 ≤ y) && decide (y ≤ 9999) &&
  decide (1 ≤ mo) && decide (mo ≤ 12) &&
  decide (1 ≤ d) && decide (d ≤ daysInMonth y mo) &&
  decide (h ≤ 23) && decide (mi ≤ 59) && decide (s ≤ 59)

/-- `VideoFile.from_filename`.  Raising `ValueError` is embedded as
`Except.error`. -/
def fromFilename (path : String) : Except String VideoFile :=
  let filename := lastSegment path
  match matchFilename filename with
  | none => .error ("Invalid filename format: " ++ filename)
  | some (y, mo, d, h, mi, s) =>
    if validDateTime y mo d h mi s then
      .ok { path := path
            filename := filename
            timestamp := ⟨y, mo, d, h, mi, s⟩
            camera := if strContainsB path "/back_" then "back" else "front"
            type :=
              if strContainsB path "/emr/" || strContainsB path "/back_emr/" then "emergency"
              else if strContainsB path "/photo/" || strContainsB path "/back_photo/" then "photo"
              else "normal" }
    else
      .error "invalid date or time fields"

/-! ### Spec-side filename grammar

`anchoredGrammarMatch` follows the specification's words: the grammar
`^(\d{4})_(\d{2})_(\d{2})_(\d{6})_\d{2}\.(TS|THM|TXT)$` is fully anchored,
so nothing may follow the extension.  It exists to be compared against the
code's acceptance behaviour. -/

/-- End-anchored extension alternative: the remainder must be exactly one
of the three extensions. -/
def anchoredExt (cs : List Char) : Bool :=
  cs == ['T', 'S'] || cs == ['T', 'H', 'M'] || cs == ['T', 'X', 'T']

/-- Full-anchors reading of the spec's filename grammar: the same body up
to the dot, but nothing may remain after the extension. -/
def anchoredGrammarMatch (filename : String) : Bool :=
  match matchCore filename.toList with
  | some (_, rest) => anchoredExt rest
  | none => false

/-- Acceptance as the code actually behaves: the regex must match a prefix
of the last path segment and the captured fields must form a valid
calendar date-time. -/
def acceptedFilename (filename : String) : Bool :=
  match matchFilename filename with
  | some (y, mo, d, h, mi, s) => validDateTime y mo d h mi s
  | none => false

/-! ## Download orchestrator (`src/services/download_manager.py`)

The queue is Python's `self.queue` list; list elements stand for the task
objects it holds (each `add_to_queue` call constructs a fresh object, so
positions identify objects).  In-place mutation of a task becomes
replacement at its position.  The filesystem is the list of paths that
exist on local disk.  Completion-sink invocations are recorded as the
sequence of task values passed to `on_complete`. -/

/-- Manager state: configuration, queue, sink history and local disk. -/
structure DMState where
  maxParallel : Int
  downloadDir : String
  queue : List DownloadTask
  completions : List DownloadTask
  fs : List String
  deriving DecidableEq, Repr

/-- A fresh manager over an initial local disk (`__init__`). -/
def initState (mp : Int) (dir : String) (fs0 : List String) : DMState :=
  { maxParallel := mp, downloadDir := dir, queue := [], completions := [], fs := fs0 }

/-- Zero-padded decimal, width 2 (`strftime` date components). -/
def pad2 (n : Nat) : String :=
  if n < 10 then "0" ++ toString n else toString n

/-- Zero-padded decimal, width 4 (`strftime` year). -/
def pad4 (n : Nat) : String :=
  if n < 10 then "000" ++ toString n
  else if n < 100 then "00" ++ toString n
  else if n < 1000 then "0" ++ toString n
  else toString n

/-- `video.timestamp.strftime("%Y-%m-%d")`. -/
def dateDirName (d : Date6) : String :=
  pad4 d.year ++ "-" ++ pad2 d.month ++ "-" ++ pad2 d.day

/-- Destination `<downloadDir>/<YYYY-MM-DD>/<filename>` assigned at
enqueue time. -/
def localPathFor (s : DMState) (v : VideoFile) : String :=
  s.downloadDir ++ "/" ++ dateDirName v.timestamp ++ "/" ++ v.filename

/-- `add_to_queue`: born-`completed` short-circuit when the destination
exists, else append a `queued` task.  Returns the new state and the task
handed back to the caller. -/
def addToQueue (s : DMState) (v : VideoFile) : DMState × DownloadTask :=
  let lp := localPathFor s v
  let task : DownloadTask :=
    { file := v, status := "queued", progress := 0, speedMbps := 0
      error := none, localPath := some lp }
  if s.fs.contains lp then
    let task := { task with status := "completed", progress := 100 }
    ({ s with completions := s.completions ++ [task] }, task)
  else
    ({ s with queue := s.queue ++ [task] }, task)

/-- `remove_from_queue`: refuse while downloading; otherwise Python's
`task in self.queue` / `self.queue.remove(task)` pair, which compares
tasks by dataclass value equality and removes the first equal element. -/
def removeFromQueue (s : DMState) (t : DownloadTask) : DMState × Bool :=
  if t.status == "downloading" then (s, false)
  else if s.queue.contains t then
    ({ s with queue := s.queue.erase t }, true)
  else
    (s, false)

/-- `pause_task` on the task at position `i`: only `queued → paused`. -/
def pauseAt (s : DMState) (i : Nat) : DMState :=
  match s.queue.get? i with
  | some t =>
    if t.status == "queued" then
      { s with queue := s.queue.set i { t with status := "paused" } }
    else s
  | none => s

/-- `resume_task` on the task at position `i`: only `paused → queued`. -/
def resumeAt (s : DMState) (i : Nat) : DMState :=
  match s.queue.get? i with
  | some t =>
    if t.status == "paused" then
      { s with queue := s.queue.set i { t with status := "queued" } }
    else s
  | none => s

/-- `clear_completed`: drop every task with `is_complete()`; also return
the number removed. -/
def clearCompleted (s : DMState) : DMState × Nat :=
  let q' := s.queue.filter (fun t => !(t.status == "completed"))
  ({ s with queue := q' }, s.queue.length - q'.length)

/-- Number of queue members with the given status
(`sum(1 for t in self.queue if t.status == ...)`). -/
def countStatus (q : List DownloadTask) (st : String) : Nat :=
  q.countP (fun t => t.status == st)

/-- The `QueueSnapshot` returned by `get_queue_status`. -/
structure QueueSnapshot where
  total : Nat
  queued : Nat
  downloading : Nat
  completed : Nat
  failed : Nat
  paused : Nat
  deriving DecidableEq, Repr

/-- `get_queue_status`. -/
def getQueueStatus (s : DMState) : QueueSnapshot :=
  { total := s.queue.length
    queued := countStatus s.queue "queued"
    downloading := countStatus s.queue "downloading"
    completed := countStatus s.queue "completed"
    failed := countStatus s.queue "failed"
    paused := countStatus s.queue "paused" }

/-- The in-place marking loop of `_get_next_tasks`: flip the first `k`
`queued` tasks (queue order) to `downloading`. -/
def promoteQueued : List DownloadTask → Nat → List DownloadTask
  | q, 0 => q
  | [], _ + 1 => []
  | t :: ts, k + 1 =>
    if t.status == "queued" then
      { t with status := "downloading" } :: promoteQueued ts k
    else
      t :: promoteQueued ts (k + 1)

/-- `_get_next_tasks`: under the queue lock, count `downloading` tasks,
compute `slots = max_parallel - downloading`, and promote at most that
many `queued` tasks in FIFO order. -/
def getNextTasks (s : DMState) : DMState :=
  let downloading : Int := countStatus s.queue "downloading"
  let slots : Int := s.maxParallel - downloading
  if slots ≤ 0 then s
  else { s with queue := promoteQueued s.queue slots.toNat }

/-! ### Per-task attempts and retry (`_download_video`, `_download_video_attempt`)

What the network does during one attempt is the environment's choice; an
`AttemptScript` records it: a non-streaming whole body of some size, a
streaming body delivered as a list of chunk sizes, or a streaming body
that raises after some chunks.  The wall clock enters only through
`time.time() - start_time`; the model takes that elapsed value as a
parameter (it only feeds the speed estimate). -/

/-- One network attempt as the environment plays it. -/
inductive AttemptScript where
  | wholeBytes (size : Nat)
  | streamOk (chunks : List Nat)
  | streamFail (chunks : List Nat) (msg : String)
  deriving DecidableEq, Repr

/-- Result of running attempt code on a task: the task's new value, the
sequence of values written to `task.progress`, the exception message if
one escaped, and whether the destination file was (re)written. -/
structure AttemptResult where
  task : DownloadTask
  writes : List ℚ
  raised : Option String
  wrote : Bool
  deriving DecidableEq, Repr

/-- `size_mb * 8 / elapsed` with the code's `elapsed > 0` guard. -/
def speedOf (bytes : Nat) (elapsed : ℚ) : ℚ :=
  if 0 < elapsed then ((bytes : ℚ) / 1048576) * 8 / elapsed else 0

/-- The streaming progress estimate:
`min(95.0, (downloaded / estimated_total) * 100)` with the 50 MiB
heuristic total `52428800`. -/
def progEstimate (downloaded : Nat) : ℚ :=
  min 95 ((downloaded : ℚ) / 52428800 * 100)

/-- Progress values written by the chunk loop, starting from `acc` bytes
already downloaded; zero-length chunks are skipped by `if chunk:`. -/
def progressWrites : List Nat → Nat → List ℚ
  | [], _ => []
  | c :: rest, acc =>
    if c = 0 then progressWrites rest acc
    else progEstimate (acc + c) :: progressWrites rest (acc + c)

/-- `_download_video_attempt` on one script. -/
def runAttempt (t : DownloadTask) (script : AttemptScript) (elapsed : ℚ) : AttemptResult :=
  match script with
  | .wholeBytes size =>
    { task := { t with speedMbps := speedOf size elapsed
                       progress := 100
                       status := "completed" }
      writes := [100], raised := none, wrote := true }
  | .streamOk chunks =>
    { task := { t with speedMbps := speedOf chunks.sum elapsed
                       progress := 100
                       status := "completed" }
      writes := progressWrites chunks 0 ++ [100], raised := none, wrote := true }
  | .streamFail chunks msg =>
    let ws := progressWrites chunks 0
    let t' :=
      if ws.isEmpty then t
      else { t with progress := ws.getLastD t.progress
                    speedMbps := speedOf chunks.sum elapsed }
    { task := t', writes := ws, raised := some msg, wrote := !chunks.isEmpty }

/-- The retry loop of `_download_video` (`max_retries = 3`, one script
per attempt; the caller supplies as many scripts as attempts run).  On
the final failure the task becomes `failed`, `error` gets the
"Failed after 3 attempts" message, `progress` is set to `0`, and the
exception is re-raised. -/
def downloadVideoGo (elapsed : ℚ) : DownloadTask → List AttemptScript → AttemptResult
  | t, [] => { task := t, writes := [], raised := none, wrote := false }
  | t, [script] =>
    let r := runAttempt t script elapsed
    match r.raised with
    | none => r
    | some e =>
      { task := { r.task with status := "failed"
                              error := some ("Failed after 3 attempts: " ++ e)
                              progress := 0 }
        writes := r.writes ++ [0], raised := some e, wrote := r.wrote }
  | t, script :: s2 :: rest =>
    let r := runAttempt t script elapsed
    match r.raised with
    | none => r
    | some _ =>
      let r2 := downloadVideoGo elapsed r.task (s2 :: rest)
      { task := r2.task, writes := r.writes ++ r2.writes
        raised := r2.raised, wrote := r.wrote || r2.wrote }

/-- `_download_video` with the `except` clause of `_process_queue` around
it: when the retry loop re-raises, the worker-loop handler sets
`task.status = "failed"` and `task.error = str(e)` before invoking the
completion sink.  The resulting `task` is the value the completion sink
observes. -/
def processTask (t : DownloadTask) (scripts : List AttemptScript) (elapsed : ℚ) : AttemptResult :=
  let r := downloadVideoGo elapsed t scripts
  match r.raised with
  | none => r
  | some e => { r with task := { r.task with status := "failed", error := some e } }

/-- A worker finishing the task at queue position `i`: run the attempts,
write the task back in place, record the completion-sink call, and add
the destination to the local disk when the attempt code opened it. -/
def finishTaskAt (s : DMState) (i : Nat) (scripts : List AttemptScript) (elapsed : ℚ) : DMState :=
  match s.queue.get? i with
  | none => s
  | some t =>
    let r := processTask t scripts elapsed
    let fs' :=
      if r.wrote then
        match t.localPath with
        | some lp => lp :: s.fs
        | none => s.fs
      else s.fs
    { s with queue := s.queue.set i r.task
             completions := s.completions ++ [r.task]
             fs := fs' }

/-! ### Orchestrator transition system

Every status mutation the code performs is one of the operations below.
Promotion (`_get_next_tasks`) runs under the queue lock, so it is atomic;
the remaining operations never raise a task into `downloading`, so
treating each as one step is sound for bounding the `downloading` count. -/

/-- One observable operation of the download manager. -/
inductive DMStep : DMState → DMState → Prop where
  | add (s : DMState) (v : VideoFile) : DMStep s (addToQueue s v).1
  | promote (s : DMState) : DMStep s (getNextTasks s)
  | finish (s : DMState) (i : Nat) (scripts : List AttemptScript) (elapsed : ℚ) :
      DMStep s (finishTaskAt s i scripts elapsed)
  | pause (s : DMState) (i : Nat) : DMStep s (pauseAt s i)
  | resume (s : DMState) (i : Nat) : DMStep s (resumeAt s i)
  | remove (s : DMState) (t : DownloadTask) : DMStep s (removeFromQueue s t).1
  | clear (s : DMState) : DMStep s (clearCompleted s).1

/-- States reachable from a fresh manager through manager operations. -/
def DMReachable (s₀ s : DMState) : Prop :=
  Relation.ReflTransGen DMStep s₀ s

/-! ## Thumbnail pipeline (`dashcam_python/src/ui/video_grid.py`)

### Validation (`_load_thumbnail_async`, body with a live batch)

The body's cache/network decision tree is a pure function of the cached
blob (if any) and the blob the device returns; its observable actions are
recorded as events in program order. -/

/-- Observable actions of one thumbnail load. -/
inductive ThumbEvent where
  | publish (b : List Nat)
  | errMarker
  | cacheWrite (b : List Nat)
  | invalidate
  deriving DecidableEq, Repr

/-- `len(data) >= 2 and data[:2] == b'\xff\xd8'` — the JPEG SOI check. -/
def isJpegSOI (b : List Nat) : Bool :=
  match b with
  | x :: y :: _ => x == 255 && y == 216
  | _ => false

/-- The network half: `if thumbnail_data:` (empty is falsy), the SOI
check with its bad-frame diagnostics, then cache write and publish. -/
def fetchPhase (fetched : List Nat) : List ThumbEvent :=
  if fetched.isEmpty then [.errMarker]
  else if !isJpegSOI fetched then [.errMarker]
  else [.cacheWrite fetched, .publish fetched]

/-- The cache-first decision tree of `_load_thumbnail_async`.  The guard
is Python's `if cached_data:`, a truthiness test — both `None` (not
cached) and an empty `b''` blob are falsy and skip the cached branch
entirely, falling straight through to the network fetch with no
invalidation.  A non-empty cached blob is published if it carries the
JPEG SOI, and otherwise invalidated before the fetch. -/
def loadThumbnail (cached : Option (List Nat)) (fetched : List Nat) : List ThumbEvent :=
  match cached with
  | some d =>
    if d.isEmpty then fetchPhase fetched
    else if isJpegSOI d then [.publish d]
    else .invalidate :: fetchPhase fetched
  | none => fetchPhase fetched

/-! ### Batch cancellation (`load_videos` / `clear` / checkpoints)

An interleaving model.  `load_videos` calls `clear` (which increments
`loading_batch_id`), captures the new id, and submits one job per record.
A worker compares its captured id with the current id at three points:
on entry, before the API call, and after the API call; passing the last
comparison, it publishes with no further check (`GLib.idle_add`).  The
scheduler picks which thread advances at each step. -/

/-- Worker program counter: between which checkpoints the thread sits. -/
inductive WPc where
  | entry
  | beforeApi
  | afterApi
  | ready
  | published
  | dropped
  deriving DecidableEq, Repr

/-- One thumbnail-loader thread: its captured batch id and position. -/
structure Worker where
  captured : Nat
  pc : WPc
  deriving DecidableEq, Repr

/-- Shared pipeline state: current batch id and all spawned workers. -/
structure GridState where
  batchId : Nat
  workers : List Worker
  deriving DecidableEq, Repr

/-- A fresh grid (`loading_batch_id = 0`, no jobs). -/
def gridInit : GridState := { batchId := 0, workers := [] }

/-- Observable pipeline events: a `load_videos` call returning after
publishing batch `newId`, or worker `worker` invoking the publish sink. -/
inductive GridEvent where
  | loadDone (newId : Nat)
  | publish (worker : Nat) (captured : Nat)
  deriving DecidableEq, Repr

/-- Scheduler choices: run `load_videos` with `records` files, or let
worker `i` take its next step. -/
inductive GridAct where
  | loadAll (records : Nat)
  | wstep (i : Nat)
  deriving DecidableEq, Repr

/-- Advance a worker that sits at a checkpoint: pass or drop. -/
def checkAdvance (current : Nat) (w : Worker) (next : WPc) : Worker :=
  if w.captured = current then { w with pc := next } else { w with pc := .dropped }

/-- One scheduler step. -/
def gridApply (s : GridState) (a : GridAct) : GridState × List GridEvent :=
  match a with
  | .loadAll n =>
    let b := s.batchId + 1
    ({ batchId := b
       workers := s.workers ++ List.replicate n { captured := b, pc := .entry } },
     [.loadDone b])
  | .wstep i =>
    match s.workers.get? i with
    | none => (s, [])
    | some w =>
      match w.pc with
      | .entry => ({ s with workers := s.workers.set i (checkAdvance s.batchId w .beforeApi) }, [])
      | .beforeApi => ({ s with workers := s.workers.set i (checkAdvance s.batchId w .afterApi) }, [])
      | .afterApi => ({ s with workers := s.workers.set i (checkAdvance s.batchId w .ready) }, [])
      | .ready => ({ s with workers := s.workers.set i { w with pc := .published } },
                   [.publish i w.captured])
      | .published => (s, [])
      | .dropped => (s, [])

/-- Run a whole schedule, collecting events in order. -/
def gridRun : GridState → List GridAct → GridState × List GridEvent
  | s, [] => (s, [])
  | s, a :: rest =>
    let p := gridApply s a
    let q := gridRun p.1 rest
    (q.1, p.2 ++ q.2)

/-- Does some publish event carry a batch id older than a `loadDone`
that precedes it?  (`m` is the largest batch id returned so far.) -/
def hasStalePublish : Nat → List GridEvent → Bool
  | _, [] => false
  | m, .loadDone n :: rest => hasStalePublish (max m n) rest
  | m, .publish _ c :: rest => decide (c < m) || hasStalePublish m rest

/-! ## Cache manager (`dashcam_python/src/services/cache_manager.py`)

`_get_cache_key` is `hashlib.md5(file_path.encode()).hexdigest()`:
lowercase hex of the MD5 of the path's UTF-8 bytes.  MD5 is implemented
below (RFC 1321) over `Nat` with explicit reduction mod `2^32`. -/

/-- Truncate to a 32-bit word. -/
def w32 (n : Nat) : Nat := n % 4294967296

/-- Bitwise complement within 32 bits (inputs are below `2^32`). -/
def bNot32 (x : Nat) : Nat := 4294967295 - x

/-- 32-bit left rotation. -/
def rotl32 (x n : Nat) : Nat := w32 ((x <<< n) + (x >>> (32 - n)))

/-- The 64 sine-derived MD5 constants. -/
def md5K : List Nat :=
  [0xd76aa478, 0xe8c7b756, 0x242070db, 0xc1bdceee,
   0xf57c0faf, 0x4787c62a, 0xa8304613, 0xfd469501,
   0x698098d8, 0x8b44f7af, 0xffff5bb1, 0x895cd7be,
   0x6b901122, 0xfd987193, 0xa679438e, 0x49b40821,
   0xf61e2562, 0xc040b340, 0x265e5a51, 0xe9b6c7aa,
   0xd62f105d, 0x02441453, 0xd8a1e681, 0xe7d3fbc8,
   0x21e1cde6, 0xc33707d6, 0xf4d50d87, 0x455a14ed,
   0xa9e3e905, 0xfcefa3f8, 0x676f02d9, 0x8d2a4c8a,
   0xfffa3942, 0x8771f681, 0x6d9d6122, 0xfde5380c,
   0xa4beea44, 0x4bdecfa9, 0xf6bb4b60, 0xbebfbc70,
   0x289b7ec6, 0xeaa127fa, 0xd4ef3085, 0x04881d05,
   0xd9d4d039, 0xe6db99e5, 0x1fa27cf8, 0xc4ac5665,
   0xf4292244, 0x432aff97, 0xab9423a7, 0xfc93a039,
   0x655b59c3, 0x8f0ccc92, 0xffeff47d, 0x85845dd1,
   0x6fa87e4f, 0xfe2ce6e0, 0xa3014314, 0x4e0811a1,
   0xf7537e82, 0xbd3af235, 0x2ad7d2bb, 0xeb86d391]

/-- Per-round left-rotation amounts. -/
def md5S : List Nat :=
  [7, 12, 17, 22, 7, 12, 17, 22, 7, 12, 17, 22, 7, 12, 17, 22,
   5, 9, 14, 20, 5, 9, 14, 20, 5, 9, 14, 20, 5, 9, 14, 20,
   4, 11, 16, 23, 4, 11, 16, 23, 4, 11, 16, 23, 4, 11, 16, 23,
   6, 10, 15, 21, 6, 10, 15, 21, 6, 10, 15, 21, 6, 10, 15, 21]

/-- Round-dependent mixing function. -/
def md5F (i b c d : Nat) : Nat :=
  if i < 16 then (b &&& c) ||| (bNot32 b &&& d)
  else if i < 32 then (d &&& b) ||| (bNot32 d &&& c)
  else if i < 48 then b ^^^ c ^^^ d
  else c ^^^ (b ||| bNot32 d)

/-- Round-dependent message-word index. -/
def md5G (i : Nat) : Nat :=
  if i < 16 then i
  else if i < 32 then (5 * i + 1) % 16
  else if i < 48 then (3 * i + 5) % 16
  else (7 * i) % 16

/-- One of the 64 rounds on the `(a, b, c, d)` state. -/
def md5Step (M : List Nat) (st : Nat × Nat × Nat × Nat) (i : Nat) : Nat × Nat × Nat × Nat :=
  match st with
  | (a, b, c, d) =>
    let f := w32 (md5F i b c d + a + md5K.getD i 0 + M.getD (md5G i) 0)
    (d, w32 (b + rotl32 f (md5S.getD i 0)), b, c)

/-- Process one 64-byte block (little-endian word decode, 64 rounds,
feed-forward addition). -/
def md5ProcessBlock (st : Nat × Nat × Nat × Nat) (block : List Nat) : Nat × Nat × Nat × Nat :=
  let M := (List.range 16).map fun j =>
    block.getD (4 * j) 0 + 256 * block.getD (4 * j + 1) 0 +
    65536 * block.getD (4 * j + 2) 0 + 16777216 * block.getD (4 * j + 3) 0
  match (List.range 64).foldl (md5Step M) st, st with
  | (a, b, c, d), (a0, b0, c0, d0) => (w32 (a0 + a), w32 (b0 + b), w32 (c0 + c), w32 (d0 + d))

/-- Little-endian byte expansion, fixed width. -/
def leBytes (width n : Nat) : List Nat :=
  (List.range width).map fun i => (n >>> (8 * i)) &&& 255

/-- MD5 padding: `0x80`, zeros to 56 mod 64, 64-bit little-endian bit
length. -/
def md5Pad (msg : List Nat) : List Nat :=
  let k := (119 - msg.length % 64) % 64
  msg ++ [128] ++ List.replicate k 0 ++ leBytes 8 ((msg.length * 8) % 18446744073709551616)

/-- Split into 64-byte blocks. -/
def chunks64 (l : List Nat) : List (List Nat) :=
  match l with
  | [] => []
  | a :: rest => (a :: rest).take 64 :: chunks64 (rest.drop 63)
termination_by l.length
decreasing_by
  simp only [List.length_drop, List.length_cons]
  omega

/-- MD5 digest of a byte sequence. -/
def md5Bytes (msg : List Nat) : List Nat :=
  match (chunks64 (md5Pad msg)).foldl md5ProcessBlock
      (0x67452301, 0xefcdab89, 0x98badcfe, 0x10325476) with
  | (a, b, c, d) => leBytes 4 a ++ leBytes 4 b ++ leBytes 4 c ++ leBytes 4 d

/-- Lowercase hexadecimal digit. -/
def hexDigit (n : Nat) : Char :=
  "0123456789abcdef".toList.getD n '0'

/-- Lowercase hex string of a byte sequence (`hexdigest()`). -/
def bytesToHex (bs : List Nat) : String :=
  String.mk ((bs.map fun b => [hexDigit (b / 16), hexDigit (b % 16)]).flatten)

/-- UTF-8 encoding of one character (`str.encode()`). -/
def utf8Char (c : Char) : List Nat :=
  let n := c.toNat
  if n < 128 then [n]
  else if n < 2048 then [192 + n / 64, 128 + n % 64]
  else if n < 65536 then [224 + n / 4096, 128 + n / 64 % 64, 128 + n % 64]
  else [240 + n / 262144, 128 + n / 4096 % 64, 128 + n / 64 % 64, 128 + n % 64]

/-- UTF-8 bytes of a string. -/
def utf8Encode (s : String) : List Nat :=
  (s.toList.map utf8Char).flatten

/-- `_get_cache_key`: lowercase-hex MD5 of the path's UTF-8 bytes. -/
def cacheKey (p : String) : String :=
  bytesToHex (md5Bytes (utf8Encode p))

/-- One `metadata.json` record. -/
structure MetaEntry where
  filePath : String
  cachedAt : String
  size : Nat
  deriving DecidableEq, Repr

/-- Cache manager state: the cache root, the blob files on disk, and the
metadata index.  `files` maps a disk path to its bytes; writing shadows
older entries and `lookup` reads the first (newest) one. -/
structure CMState where
  cacheDir : String
  files : List (String × List Nat)
  metadata : List (String × MetaEntry)
  deriving DecidableEq, Repr

/-- `_get_thumbnail_path`: `<cacheDir>/thumbnails/<cacheKey>.jpg`. -/
def thumbnailPathFor (st : CMState) (key : String) : String :=
  st.cacheDir ++ "/thumbnails/" ++ key ++ ".jpg"

/-- `get_thumbnail`: read the blob at the key-derived path, if present. -/
def getThumbnail (st : CMState) (p : String) : Option (List Nat) :=
  st.files.lookup (thumbnailPathFor st (cacheKey p))

/-- `save_thumbnail` (the success path): write the blob at the
key-derived path, update the metadata index, return `True`.  `now` is
`datetime.now().isoformat()`. -/
def saveThumbnail (st : CMState) (p : String) (b : List Nat) (now : String) : CMState × Bool :=
  let key := cacheKey p
  ({ st with files := (thumbnailPathFor st key, b) :: st.files
             metadata := (key, { filePath := p, cachedAt := now, size := b.length }) :: st.metadata },
   true)

/-! ## Auxiliary predicates and concrete scenario inputs -/

/-- Is a sequence of rationals sorted non-decreasingly? -/
def nondecreasingQ : List ℚ → Bool
  | [] => true
  | [_] => true
  | a :: b :: rest => decide (a ≤ b) && nondecreasingQ (b :: rest)

/-- A concrete parsed front/normal recording. -/
def sampleVideo : VideoFile :=
  { path := "sd//norm/2025_10_12_220337_00.TS"
    filename := "2025_10_12_220337_00.TS"
    timestamp := ⟨2025, 10, 12, 22, 3, 37⟩ }

/-- A task for `sampleVideo` that a worker has begun downloading. -/
def sampleTask : DownloadTask :=
  { file := sampleVideo, status := "downloading"
    localPath := some "dl/2025-10-12/2025_10_12_220337_00.TS" }

/-- Three attempts that all raise before any chunk arrives. -/
def threeFailScripts : List AttemptScript :=
  [.streamFail [] "Connection reset",
   .streamFail [] "Connection reset",
   .streamFail [] "Connection reset"]

/-- First attempt delivers a full 50 MiB then raises; the second attempt
succeeds after one byte; a third attempt is never reached. -/
def retryScripts : List AttemptScript :=
  [.streamFail [52428800] "timeout", .streamOk [1], .streamOk [1]]

/-- Queue a video, promote it, let it download an empty body
successfully, then enqueue the same video again (its destination now
exists).  Python value equality then lets `remove_from_queue` match the
born-completed handle against the queue's finished task. -/
def c10Scenario : DMState × DownloadTask :=
  let s1 := (addToQueue (initState 3 "dl" []) sampleVideo).1
  let s2 := getNextTasks s1
  let s3 := finishTaskAt s2 0 [.wholeBytes 0] 1
  addToQueue s3 sampleVideo

/-- Schedule: dispatch one job, let its worker pass all three
checkpoints, run a second `load_videos`, then let the old worker run its
pending publish. -/
def staleSchedule : List GridAct :=
  [.loadAll 1, .wstep 0, .wstep 0, .wstep 0, .loadAll 1, .wstep 0]

/-- A manager whose download directory already holds `sampleVideo`'s
destination file. -/
def stateWithFile : DMState :=
  initState 3 "dl" ["dl/2025-10-12/2025_10_12_220337_00.TS"]

/-! ## General list lemmas -/

theorem list_get_set_self {α : Type} : ∀ (l : List α) (i : Nat) (w x : α),
    l.get? i = some w → (l.set i x).get? i = some x := by
  intro l
  induction l with
  | nil => intro i w x h; simp [List.get?] at h
  | cons a as ih =>
    intro i w x h
    cases i with
    | zero => simp [List.set]
    | succ j => simpa [List.set] using ih j w x (by simpa using h)

theorem list_get_set_other {α : Type} : ∀ (l : List α) (i j : Nat) (x : α),
    i ≠ j → (l.set j x).get? i = l.get? i := by
  intro l
  induction l with
  | nil => intro i j x _; simp
  | cons a as ih =>
    intro i j x hij
    cases j with
    | zero =>
      cases i with
      | zero => exact absurd rfl hij
      | succ i' => simp [List.set]
    | succ j' =>
      cases i with
      | zero => simp [List.set]
      | succ i' => simpa [List.set] using ih i' j' x (by omega)

theorem list_get_append_l {α : Type} : ∀ (l l' : List α) (i : Nat) (w : α),
    l.get? i = some w → (l ++ l').get? i = some w := by
  intro l
  induction l with
  | nil => intro l' i w h; simp [List.get?] at h
  | cons a as ih =>
    intro l' i w h
    cases i with
    | zero => simpa using h
    | succ j => simpa using ih l' j w (by simpa using h)

theorem list_set_same {α : Type} : ∀ (l : List α) (i : Nat) (w : α),
    l.get? i = some w → l.set i w = l := by
  intro l
  induction l with
  | nil => intro i w h; simp [List.get?] at h
  | cons a as ih =>
    intro i w h
    cases i with
    | zero => simp at h; simp [List.set, h]
    | succ j => simp [List.set]; exact ih j w (by simpa using h)

/-! ## Claim C5: concrete parse examples -/

/-- C5: `from_filename` on `"sd//norm/2025_10_12_220337_00.TS"` yields
timestamp 2025-10-12 22:03:37, camera `front`, kind `normal`; a path
through `back_norm` yields camera `back`; one through `emr` yields kind
`emergency`; one through `photo` yields kind `photo`. -/
theorem c5_parse_examples :
    fromFilename "sd//norm/2025_10_12_220337_00.TS" =
      .ok { path := "sd//norm/2025_10_12_220337_00.TS"
            filename := "2025_10_12_220337_00.TS"
            timestamp := ⟨2025, 10, 12, 22, 3, 37⟩
            camera := "front", type := "normal" } ∧
    fromFilename "sd//back_norm/2025_10_12_220337_00.TS" =
      .ok { path := "sd//back_norm/2025_10_12_220337_00.TS"
            filename := "2025_10_12_220337_00.TS"
            timestamp := ⟨2025, 10, 12, 22, 3, 37⟩
            camera := "back", type := "normal" } ∧
    fromFilename "sd//emr/2025_10_12_220337_00.TS" =
      .ok { path := "sd//emr/2025_10_12_220337_00.TS"
            filename := "2025_10_12_220337_00.TS"
            timestamp := ⟨2025, 10, 12, 22, 3, 37⟩
            camera := "front", type := "emergency" } ∧
    fromFilename "sd//photo/2025_10_12_220337_00.TS" =
      .ok { path := "sd//photo/2025_10_12_220337_00.TS"
            filename := "2025_10_12_220337_00.TS"
            timestamp := ⟨2025, 10, 12, 22, 3, 37⟩
            camera := "front", type := "photo" } := by
  refine ⟨rfl, rfl, rfl, rfl⟩

/-! ## Claim C6: the filename grammar is not end-anchored -/

/-- C6 counterexample: the pattern passed to `re.match` has no `$`, so a
filename with trailing characters after the extension is accepted even
though the spec's fully anchored grammar rejects it; conversely a
filename whose digits match the grammar but denote no valid calendar
date is rejected by construction (Python's `datetime` raises). -/
theorem c6_not_anchored_counterexample :
    (fromFilename "sd//norm/2025_10_12_220337_00.TSx").isOk = true ∧
    anchoredGrammarMatch (lastSegment "sd//norm/2025_10_12_220337_00.TSx") = false ∧
    anchoredGrammarMatch (lastSegment "sd//norm/2025_13_40_996161_00.TS") = true ∧
    (fromFilename "sd//norm/2025_13_40_996161_00.TS").isOk = false := by
  refine ⟨rfl, rfl, rfl, rfl⟩

/-! ## Claim C1: error text observed by the completion sink -/

/-- C1 (code bug): when all three attempts raise, the final task status
is `failed` and progress is 0 as claimed, but the completion sink
observes `error = str(e)` — the generic handler in `_process_queue`
overwrites the "Failed after 3 attempts" message that `_download_video`
had stored, so the sink's error never mentions the attempt count. -/
theorem c1_exhausted_retries_error_clobbered :
    (processTask sampleTask threeFailScripts 1).task.status = "failed" ∧
    (processTask sampleTask threeFailScripts 1).task.progress = 0 ∧
    (processTask sampleTask threeFailScripts 1).task.error = some "Connection reset" ∧
    (downloadVideoGo 1 sampleTask threeFailScripts).task.error =
      some "Failed after 3 attempts: Connection reset" ∧
    strContainsB "Connection reset" "after 3 attempts" = false := by
  refine ⟨rfl, rfl, rfl, rfl, rfl⟩

/-! ## Claim C4: progress write monotonicity -/

/-- C4 counterexample: a first attempt that fails after delivering a full
50 MiB writes progress 95; the code does not reset progress on retry, so
the second attempt's first write (one byte, about 0.0002) is a strict
decrease — the whole-task write sequence is not non-decreasing. -/
theorem c4_progress_decreases_on_retry :
    (downloadVideoGo 1 sampleTask retryScripts).writes = [95, 1 / 524288, 100] ∧
    nondecreasingQ (downloadVideoGo 1 sampleTask retryScripts).writes = false := by
  have h : (downloadVideoGo 1 sampleTask retryScripts).writes = [95, 1 / 524288, 100] := by
    simp [downloadVideoGo, runAttempt, retryScripts, progressWrites, progEstimate, speedOf,
      sampleTask]
    norm_num
  refine ⟨h, ?_⟩
  rw [h]
  norm_num [nondecreasingQ]

/-! ## Claim C8: stale publish after a second loadAll -/

/-- C8 counterexample: a worker can pass its final checkpoint, the second
`load_videos` can then run to completion, and the worker still invokes
the publish sink afterwards — the schedule below produces a publish event
carrying batch id 1 after `loadDone 2`. -/
theorem c8_stale_publish_counterexample :
    (gridRun gridInit staleSchedule).2 =
      [.loadDone 1, .loadDone 2, .publish 0 1] ∧
    hasStalePublish 0 (gridRun gridInit staleSchedule).2 = true := by
  refine ⟨rfl, rfl⟩

/-! ## Claim C10: the born-completed task and value equality -/

/-- C10 counterexample: after a task for the same video completed in the
queue with an empty body (speed 0, progress 100), a later born-completed
handle is field-for-field equal to that queue entry; Python's
`task in self.queue` compares dataclass values, so `remove_from_queue`
finds it, removes the queue entry, and returns `True`, not `False`. -/
theorem c10_remove_returns_true_counterexample :
    c10Scenario.2.status = "completed" ∧
    c10Scenario.2.progress = 100 ∧
    (removeFromQueue c10Scenario.1 c10Scenario.2).2 = true ∧
    (removeFromQueue c10Scenario.1 c10Scenario.2).1.queue = [] := by
  have hsp : speedOf 0 1 = 0 := by norm_num [speedOf]
  refine ⟨?_, ?_, ?_, ?_⟩ <;>
    simp [c10Scenario, addToQueue, initState, localPathFor, dateDirName, pad2, pad4, sampleVideo,
      getNextTasks, countStatus, promoteQueued, finishTaskAt, processTask, downloadVideoGo,
      runAttempt, hsp, removeFromQueue, List.erase]

/-! ## Claim C9: cache save/get round-trip -/

/-- C9: a successful `save_thumbnail(p, blob)` followed by
`get_thumbnail(p)` returns exactly `blob`: both derive the storage
location from the same key, the lowercase-hex MD5 of `p`. -/
theorem c9_save_then_get_roundtrip (st : CMState) (p : String) (b : List Nat) (now : String) :
    getThumbnail (saveThumbnail st p b now).1 p = some b := by
  simp [getThumbnail, saveThumbnail, thumbnailPathFor, List.lookup]

/-- C6 amended: construction succeeds exactly when the last path segment
matches the start-anchored grammar (trailing characters after the
extension are accepted, since `re.match` carries no `$`) and the captured
digits form a valid calendar date-time; every fully anchored match still
passes the start-anchored grammar. -/
theorem c6_acceptance_characterization :
    (∀ path, (fromFilename path).isOk = acceptedFilename (lastSegment path)) ∧
    (∀ f, anchoredGrammarMatch f = true → (matchFilename f).isSome = true) := by
  constructor
  · intro path
    unfold fromFilename acceptedFilename
    cases hm : matchFilename (lastSegment path) with
    | none => simp [hm, Except.isOk, Except.toBool]
    | some tup =>
      obtain ⟨y, mo, d, h, mi, s⟩ := tup
      by_cases hv : validDateTime y mo d h mi s = true
      · simp [hm, hv, Except.isOk, Except.toBool]
      · simp [hm, Bool.eq_false_iff.mpr hv, Except.isOk, Except.toBool]
  · intro f h
    unfold matchFilename
    cases hm : matchCore f.toList with
    | none =>
      unfold anchoredGrammarMatch at h
      rw [hm] at h
      exact absurd h (by simp)
    | some pr =>
      obtain ⟨fields, rest⟩ := pr
      unfold anchoredGrammarMatch at h
      rw [hm] at h
      simp only [anchoredExt, Bool.or_eq_true, beq_iff_eq] at h
      rcases h with (h | h) | h <;> subst h <;> rfl

/-- Closed instance of `c6_acceptance_characterization`: the anchored
grammar accepts the canonical filename, hence so does the code's regex. -/
theorem c6_acceptance_characterization_witness :
    (matchFilename "2025_10_12_220337_00.TS").isSome = true :=
  c6_acceptance_characterization.2 "2025_10_12_220337_00.TS" (by decide)

/-! ## Claim C3: addToQueue semantics -/

/-- C3: if the destination file exists, `add_to_queue` returns a task
born `completed` with progress 100, leaves the queue untouched and
invokes the completion sink exactly once, synchronously (no other state
is touched, and the model makes no network call); otherwise it returns a
`queued` task with progress 0 appended to the queue. -/
theorem c3_addToQueue_spec (s : DMState) (v : VideoFile) :
    (s.fs.contains (localPathFor s v) = true →
      (addToQueue s v).2.status = "completed" ∧
      (addToQueue s v).2.progress = 100 ∧
      (addToQueue s v).1.queue = s.queue ∧
      (addToQueue s v).1.completions = s.completions ++ [(addToQueue s v).2] ∧
      (addToQueue s v).1.fs = s.fs) ∧
    (s.fs.contains (localPathFor s v) = false →
      (addToQueue s v).2.status = "queued" ∧
      (addToQueue s v).2.progress = 0 ∧
      (addToQueue s v).1.queue = s.queue ++ [(addToQueue s v).2] ∧
      (addToQueue s v).1.completions = s.completions ∧
      (addToQueue s v).1.fs = s.fs) := by
  constructor
  · intro h
    have hmem : localPathFor s v ∈ s.fs := by simpa using h
    simp [addToQueue, hmem]
  · intro h
    have hmem : localPathFor s v ∉ s.fs := by simpa using h
    simp [addToQueue, hmem]

/-- Closed instance of `c3_addToQueue_spec`: both branches at concrete
states. -/
theorem c3_addToQueue_spec_witness :
    (addToQueue stateWithFile sampleVideo).2.status = "completed" ∧
    (addToQueue (initState 3 "dl" []) sampleVideo).2.status = "queued" :=
  ⟨((c3_addToQueue_spec stateWithFile sampleVideo).1 (by decide)).1,
   ((c3_addToQueue_spec (initState 3 "dl" []) sampleVideo).2 (by decide)).1⟩

/-! ## Claim C7: thumbnail validation -/

/-- C7 counterexample: a cached empty blob lacks the JPEG SOI — it is an
invalid cached copy — yet Python's `if cached_data:` guard is falsy on
`b''`, so the code skips the cached branch without invalidating it and
goes straight to the network fetch: no `invalidate` ever happens. -/
theorem c7_empty_cached_copy_not_invalidated :
    isJpegSOI [] = false ∧
    loadThumbnail (some []) [255, 216, 7] =
      [.cacheWrite [255, 216, 7], .publish [255, 216, 7]] ∧
    ThumbEvent.invalidate ∉ loadThumbnail (some []) [255, 216, 7] := by
  refine ⟨rfl, rfl, by decide⟩

/-- C7 amended: a cached or fetched blob starting `FF D8` is accepted (a
fetched one is written to the cache and published, a cached one published
directly); a *non-empty* invalid cached copy is invalidated before the
re-fetch, while a cached empty blob is falsy under `if cached_data:` and
is skipped with no invalidation; a fetched blob lacking the SOI — in
particular one starting `<!` (`3C 21`) or `G@` (`47 40`) — makes the
pipeline publish an error marker and write nothing to the cache. -/
theorem c7_thumbnail_validation (cached : Option (List Nat)) (fetched d : List Nat) :
    (cached = some d → isJpegSOI d = true → loadThumbnail cached fetched = [.publish d]) ∧
    (cached = some d → d ≠ [] → isJpegSOI d = false →
      loadThumbnail cached fetched = .invalidate :: fetchPhase fetched) ∧
    (loadThumbnail (some []) fetched = fetchPhase fetched) ∧
    (isJpegSOI fetched = true →
      fetchPhase fetched = [.cacheWrite fetched, .publish fetched]) ∧
    (isJpegSOI fetched = false →
      ThumbEvent.errMarker ∈ fetchPhase fetched ∧
      (∀ b, ThumbEvent.cacheWrite b ∉ fetchPhase fetched) ∧
      (∀ b, ThumbEvent.publish b ∉ fetchPhase fetched)) ∧
    (∀ r, fetched = 60 :: 33 :: r → fetchPhase fetched = [.errMarker]) ∧
    (∀ r, fetched = 71 :: 64 :: r → fetchPhase fetched = [.errMarker]) := by
  refine ⟨?_, ?_, rfl, ?_, ?_, ?_, ?_⟩
  · intro hc hj
    subst hc
    match d, hj with
    | x :: y :: rest, hj => simp [loadThumbnail, hj]
  · intro hc hne hj
    subst hc
    match d, hne with
    | x :: rest, _ => simp [loadThumbnail, hj]
  · intro hj
    match fetched, hj with
    | x :: y :: rest, hj => simp [fetchPhase, hj]
  · intro hj
    by_cases he : fetched.isEmpty
    · simp [fetchPhase, he]
    · simp [fetchPhase, he, hj]
  · intro r hf
    subst hf
    simp [fetchPhase, isJpegSOI]
  · intro r hf
    subst hf
    simp [fetchPhase, isJpegSOI]

/-- Closed instance of `c7_thumbnail_validation`: a non-empty invalid
cached copy is invalidated, then the valid fetched blob is cached and
published; a device HTML error page yields only an error marker. -/
theorem c7_thumbnail_validation_witness :
    loadThumbnail (some [0, 1]) [255, 216, 7] =
      [.invalidate, .cacheWrite [255, 216, 7], .publish [255, 216, 7]] ∧
    ThumbEvent.errMarker ∈ fetchPhase [60, 33] := by
  constructor
  · rw [(c7_thumbnail_validation (some [0, 1]) [255, 216, 7] [0, 1]).2.1 rfl
        (by decide) (by decide),
      (c7_thumbnail_validation (some [0, 1]) [255, 216, 7] [0, 1]).2.2.2.1 (by decide)]
  · exact ((c7_thumbnail_validation none [60, 33] []).2.2.2.2.1 (by decide)).1

/-! ## Monotonicity lemmas for the progress estimate -/

theorem nondecreasingQ_cons (a : ℚ) (l : List ℚ)
    (h1 : nondecreasingQ l = true) (h2 : ∀ x ∈ l, a ≤ x) :
    nondecreasingQ (a :: l) = true := by
  cases l with
  | nil => rfl
  | cons b bs =>
    simp only [nondecreasingQ, Bool.and_eq_true, decide_eq_true_eq]
    exact ⟨h2 b (by simp), h1⟩

theorem nondecreasingQ_append_last (l : List ℚ) (c : ℚ)
    (h1 : nondecreasingQ l = true) (h2 : ∀ x ∈ l, x ≤ c) :
    nondecreasingQ (l ++ [c]) = true := by
  induction l with
  | nil => rfl
  | cons a as ih =>
    cases as with
    | nil =>
      simp only [List.cons_append, List.nil_append, nondecreasingQ, Bool.and_eq_true,
        decide_eq_true_eq]
      exact ⟨h2 a (by simp), trivial⟩
    | cons b bs =>
      simp only [nondecreasingQ, Bool.and_eq_true, decide_eq_true_eq] at h1
      have htail : nondecreasingQ ((b :: bs) ++ [c]) = true :=
        ih h1.2 (fun x hx => h2 x (by simp at hx ⊢; tauto))
      simp only [List.cons_append, nondecreasingQ, Bool.and_eq_true, decide_eq_true_eq]
      exact ⟨h1.1, by simpa using htail⟩

theorem progEstimate_le_95 (d : Nat) : progEstimate d ≤ 95 :=
  min_le_left _ _

theorem progEstimate_mono {a b : Nat} (h : a ≤ b) : progEstimate a ≤ progEstimate b := by
  unfold progEstimate
  apply min_le_min le_rfl
  gcongr

theorem progressWrites_sorted : ∀ (chunks : List Nat) (acc : Nat),
    nondecreasingQ (progressWrites chunks acc) = true ∧
    ∀ x ∈ progressWrites chunks acc, progEstimate acc ≤ x ∧ x ≤ 95 := by
  intro chunks
  induction chunks with
  | nil => intro acc; exact ⟨rfl, by simp [progressWrites]⟩
  | cons c rest ih =>
    intro acc
    by_cases hc : c = 0
    · simpa [progressWrites, hc] using ih acc
    · obtain ⟨h1, h2⟩ := ih (acc + c)
      have hmono : progEstimate acc ≤ progEstimate (acc + c) :=
        progEstimate_mono (Nat.le_add_right acc c)
      refine ⟨?_, ?_⟩
      · simp only [progressWrites, hc, if_false]
        exact nondecreasingQ_cons _ _ h1 (fun x hx => (h2 x hx).1)
      · intro x hx
        simp only [progressWrites, hc, if_false, List.mem_cons] at hx
        rcases hx with rfl | hx
        · exact ⟨hmono, progEstimate_le_95 _⟩
        · exact ⟨hmono.trans (h2 x hx).1, (h2 x hx).2⟩

/-! ## Claim C4, amended -/

/-- C4 amended: within a single attempt the sequence of values written to
`task.progress` is non-decreasing (the capped estimate over growing byte
counts, then `100.0` at completion); progress is not reset on retry, and
it is set to `0` exactly when the retry loop gives up (final failure,
after the status write). -/
theorem c4_progress_monotone_within_attempt :
    (∀ (t : DownloadTask) (script : AttemptScript) (elapsed : ℚ),
      nondecreasingQ (runAttempt t script elapsed).writes = true) ∧
    (∀ (t : DownloadTask) (scripts : List AttemptScript) (elapsed : ℚ) (e : String),
      (downloadVideoGo elapsed t scripts).raised = some e →
      (downloadVideoGo elapsed t scripts).task.progress = 0) := by
  constructor
  · intro t script elapsed
    cases script with
    | wholeBytes size => rfl
    | streamOk chunks =>
      have h := progressWrites_sorted chunks 0
      exact nondecreasingQ_append_last _ _ h.1
        (fun x hx => (h.2 x hx).2.trans (by norm_num))
    | streamFail chunks msg =>
      exact (progressWrites_sorted chunks 0).1
  · intro t scripts elapsed e h
    induction scripts generalizing t with
    | nil => simp [downloadVideoGo] at h
    | cons s1 rest ih =>
      cases rest with
      | nil =>
        simp only [downloadVideoGo] at h ⊢
        cases hr : (runAttempt t s1 elapsed).raised with
        | none => simp [hr] at h
        | some e1 => simp [hr]
      | cons s2 rest2 =>
        simp only [downloadVideoGo] at h ⊢
        cases hr : (runAttempt t s1 elapsed).raised with
        | none => simp [hr] at h
        | some e1 =>
          simp only [hr] at h ⊢
          exact ih (runAttempt t s1 elapsed).task h

/-- Closed instance of `c4_progress_monotone_within_attempt`: one
streaming attempt's writes are sorted, and an exhausted retry loop leaves
progress 0. -/
theorem c4_progress_monotone_within_attempt_witness :
    nondecreasingQ (runAttempt sampleTask (.streamOk [1, 2]) 1).writes = true ∧
    (downloadVideoGo 1 sampleTask threeFailScripts).task.progress = 0 :=
  ⟨c4_progress_monotone_within_attempt.1 sampleTask (.streamOk [1, 2]) 1,
   c4_progress_monotone_within_attempt.2 sampleTask threeFailScripts 1 "Connection reset" rfl⟩

/-! ## Counting lemmas for the downloading bound -/

theorem promoteQueued_count_le (q : List DownloadTask) : ∀ (k : Nat),
    countStatus (promoteQueued q k) "downloading" ≤ countStatus q "downloading" + k := by
  induction q with
  | nil => intro k; cases k <;> simp [promoteQueued, countStatus]
  | cons t ts ih =>
    intro k
    cases k with
    | zero => simp [promoteQueued]
    | succ k' =>
      cases hq : t.status == "queued" with
      | true =>
        have hst : t.status = "queued" := by simpa using hq
        have := ih k'
        simp only [promoteQueued, hq, if_true, countStatus, List.countP_cons, hst] at this ⊢
        norm_num
        omega
      | false =>
        have := ih (k' + 1)
        simp only [promoteQueued, hq, Bool.false_eq_true, if_false, countStatus,
          List.countP_cons] at this ⊢
        omega

theorem countStatus_set_le (q : List DownloadTask) : ∀ (i : Nat) (t' : DownloadTask),
    (t'.status == "downloading") = false →
    countStatus (q.set i t') "downloading" ≤ countStatus q "downloading" := by
  induction q with
  | nil => intro i t' _; simp [countStatus]
  | cons a as ih =>
    intro i t' h
    cases i with
    | zero =>
      simp only [List.set, countStatus, List.countP_cons, h]
      exact Nat.le_add_right _ _
    | succ j =>
      have := ih j t' h
      simp only [List.set, countStatus, List.countP_cons] at this ⊢
      omega

theorem countStatus_sublist {q r : List DownloadTask} (h : q.Sublist r) (st : String) :
    countStatus q st ≤ countStatus r st :=
  h.countP_le _

/-! ## Status of a finished task -/

theorem runAttempt_none_status (t : DownloadTask) (script : AttemptScript) (elapsed : ℚ)
    (h : (runAttempt t script elapsed).raised = none) :
    (runAttempt t script elapsed).task.status = "completed" := by
  cases script with
  | wholeBytes size => rfl
  | streamOk chunks => rfl
  | streamFail chunks msg => simp [runAttempt] at h

theorem downloadVideoGo_ne_nil_status (elapsed : ℚ) : ∀ (scripts : List AttemptScript)
    (t : DownloadTask), scripts ≠ [] →
    (downloadVideoGo elapsed t scripts).task.status = "completed" ∨
    (downloadVideoGo elapsed t scripts).task.status = "failed" := by
  intro scripts
  induction scripts with
  | nil => intro t h; exact absurd rfl h
  | cons s1 rest ih =>
    intro t _
    cases rest with
    | nil =>
      simp only [downloadVideoGo]
      cases hr : (runAttempt t s1 elapsed).raised with
      | none => left; simpa [hr] using runAttempt_none_status t s1 elapsed hr
      | some e => right; simp [hr]
    | cons s2 rest2 =>
      simp only [downloadVideoGo]
      cases hr : (runAttempt t s1 elapsed).raised with
      | none => left; simpa [hr] using runAttempt_none_status t s1 elapsed hr
      | some e => simpa [hr] using ih (runAttempt t s1 elapsed).task (by simp)

theorem processTask_ne_nil_status (t : DownloadTask) (scripts : List AttemptScript)
    (elapsed : ℚ) (h : scripts ≠ []) :
    (processTask t scripts elapsed).task.status = "completed" ∨
    (processTask t scripts elapsed).task.status = "failed" := by
  unfold processTask
  cases hr : (downloadVideoGo elapsed t scripts).raised with
  | none => simpa [hr] using downloadVideoGo_ne_nil_status elapsed scripts t h
  | some e => right; simp [hr]

/-! ## Step preservation of the downloading bound -/

theorem dmStep_preserves {s s' : DMState} (h : DMStep s s') :
    s'.maxParallel = s.maxParallel ∧
    ((countStatus s.queue "downloading" : Int) ≤ s.maxParallel →
     (countStatus s'.queue "downloading" : Int) ≤ s'.maxParallel) := by
  cases h with
  | add v =>
    by_cases hc : localPathFor s v ∈ s.fs
    · simp [addToQueue, hc]
    · constructor
      · simp [addToQueue, hc]
      · intro hle
        have hq : countStatus (addToQueue s v).1.queue "downloading"
            = countStatus s.queue "downloading" := by
          simp [addToQueue, hc, countStatus, List.countP_append, List.countP_cons]
        have hmp : (addToQueue s v).1.maxParallel = s.maxParallel := by
          simp [addToQueue, hc]
        rw [hq, hmp]
        exact hle
  | promote =>
    by_cases hs : s.maxParallel - (countStatus s.queue "downloading" : Int) ≤ 0
    · simp [getNextTasks, hs]
    · constructor
      · simp [getNextTasks, hs]
      · intro hle
        have hgoal : (getNextTasks s).queue = promoteQueued s.queue
            (s.maxParallel - (countStatus s.queue "downloading" : Int)).toNat ∧
            (getNextTasks s).maxParallel = s.maxParallel := by
          simp [getNextTasks, hs]
        have hb := promoteQueued_count_le s.queue
          (s.maxParallel - (countStatus s.queue "downloading" : Int)).toNat
        have hcast : (((s.maxParallel - (countStatus s.queue "downloading" : Int)).toNat : Int))
            = s.maxParallel - (countStatus s.queue "downloading" : Int) :=
          Int.toNat_of_nonneg (by omega)
        have hb' : (countStatus (promoteQueued s.queue
            (s.maxParallel - (countStatus s.queue "downloading" : Int)).toNat) "downloading" : Int)
            ≤ (countStatus s.queue "downloading" : Int) +
              ((s.maxParallel - (countStatus s.queue "downloading" : Int)).toNat : Int) := by
          exact_mod_cast hb
        rw [hcast] at hb'
        rw [hgoal.1, hgoal.2]
        omega
  | finish i scripts elapsed =>
    unfold finishTaskAt
    cases hq : s.queue.get? i with
    | none => simp [hq]
    | some t =>
      simp only [hq]
      refine ⟨by trivial, fun hle => ?_⟩
      cases scripts with
      | nil =>
        have ht : (processTask t [] elapsed).task = t := rfl
        rw [ht, list_set_same s.queue i t hq]
        exact hle
      | cons a rest =>
        have hst := processTask_ne_nil_status t (a :: rest) elapsed (by simp)
        have hne : ((processTask t (a :: rest) elapsed).task.status == "downloading") = false := by
          rcases hst with h1 | h1 <;> simp [h1]
        exact le_trans (by exact_mod_cast countStatus_set_le s.queue i _ hne) hle
  | pause i =>
    unfold pauseAt
    cases hq : s.queue.get? i with
    | none => simp [hq]
    | some t =>
      cases hs : t.status == "queued" with
      | false => simp [hs]
      | true =>
        simp only [hs, if_true]
        refine ⟨by trivial, fun hle => ?_⟩
        exact le_trans
          (by exact_mod_cast countStatus_set_le s.queue i { t with status := "paused" } (by simp))
          hle
  | resume i =>
    unfold resumeAt
    cases hq : s.queue.get? i with
    | none => simp [hq]
    | some t =>
      cases hs : t.status == "paused" with
      | false => simp [hs]
      | true =>
        simp only [hs, if_true]
        refine ⟨by trivial, fun hle => ?_⟩
        exact le_trans
          (by exact_mod_cast countStatus_set_le s.queue i { t with status := "queued" } (by simp))
          hle
  | remove t =>
    cases h1 : t.status == "downloading" with
    | true => simp [removeFromQueue, h1]
    | false =>
      cases h2 : s.queue.contains t with
      | false =>
        have h2m : t ∉ s.queue := by simpa using h2
        simp [removeFromQueue, h1, h2m]
      | true =>
        have h2m : t ∈ s.queue := by simpa using h2
        constructor
        · simp [removeFromQueue, h1, h2m]
        · intro hle
          have hq : (removeFromQueue s t).1.queue = s.queue.erase t ∧
              (removeFromQueue s t).1.maxParallel = s.maxParallel := by
            simp [removeFromQueue, h1, h2m]
          rw [hq.1, hq.2]
          exact le_trans
            (by exact_mod_cast countStatus_sublist (List.erase_sublist t s.queue) "downloading")
            hle
  | clear =>
    unfold clearCompleted
    refine ⟨rfl, fun hle => ?_⟩
    exact le_trans
      (by exact_mod_cast countStatus_sublist (List.filter_sublist s.queue) "downloading")
      hle

/-! ## Claim C2: the downloading bound -/

/-- C2: in every state reachable from a fresh manager by manager
operations, the number of queue tasks with status `downloading` is at most
`maxParallel`: promotion counts the downloading tasks under the lock and
promotes at most `maxParallel - downloading` queued tasks in FIFO order,
and no other operation raises a task into `downloading`. -/
theorem c2_downloading_bounded_by_maxParallel (mp : Int) (dir : String) (fs0 : List String)
    (s : DMState) (hmp : 0 ≤ mp) (h : DMReachable (initState mp dir fs0) s) :
    (countStatus s.queue "downloading" : Int) ≤ s.maxParallel := by
  unfold DMReachable at h
  have key : s.maxParallel = mp ∧
      (countStatus s.queue "downloading" : Int) ≤ s.maxParallel := by
    induction h with
    | refl => exact ⟨rfl, by simpa [initState, countStatus] using hmp⟩
    | tail hab hbc ih =>
      obtain ⟨hm, hc⟩ := ih
      obtain ⟨hm', himp⟩ := dmStep_preserves hbc
      exact ⟨hm'.trans hm, himp hc⟩
  exact key.2

/-- Closed instance of `c2_downloading_bounded_by_maxParallel` at the
initial state. -/
theorem c2_downloading_bounded_by_maxParallel_witness :
    (countStatus (initState 3 "dl" []).queue "downloading" : Int) ≤
      (initState 3 "dl" []).maxParallel :=
  c2_downloading_bounded_by_maxParallel 3 "dl" [] (initState 3 "dl" [])
    (by decide) Relation.ReflTransGen.refl

/-! ## One-step and whole-run guarantees for batch cancellation -/

theorem gridStep_preserves (s : GridState) (a : GridAct) (i : Nat) (w : Worker)
    (hget : s.workers.get? i = some w) (hlt : w.captured < s.batchId)
    (hpc : w.pc = .entry ∨ w.pc = .beforeApi ∨ w.pc = .afterApi ∨ w.pc = .dropped) :
    (∀ c, GridEvent.publish i c ∉ (gridApply s a).2) ∧
    ∃ w', (gridApply s a).1.workers.get? i = some w' ∧
      w'.captured < (gridApply s a).1.batchId ∧
      (w'.pc = .entry ∨ w'.pc = .beforeApi ∨ w'.pc = .afterApi ∨ w'.pc = .dropped) := by
  cases a with
  | loadAll n =>
    exact ⟨by intro c; simp [gridApply],
      ⟨w, list_get_append_l _ _ _ _ hget, Nat.lt_succ_of_lt hlt, hpc⟩⟩
  | wstep j =>
    by_cases hij : j = i
    · subst hij
      have hne : w.captured ≠ s.batchId := Nat.ne_of_lt hlt
      have hadv : ∀ nxt, checkAdvance s.batchId w nxt = { w with pc := .dropped } := by
        intro nxt
        unfold checkAdvance
        rw [if_neg hne]
      rcases hpc with hp | hp | hp | hp
      · simp only [gridApply, hget, hp, hadv]
        exact ⟨by intro c; simp, ⟨{ w with pc := .dropped },
          list_get_set_self _ _ _ _ hget, hlt, Or.inr (Or.inr (Or.inr rfl))⟩⟩
      · simp only [gridApply, hget, hp, hadv]
        exact ⟨by intro c; simp, ⟨{ w with pc := .dropped },
          list_get_set_self _ _ _ _ hget, hlt, Or.inr (Or.inr (Or.inr rfl))⟩⟩
      · simp only [gridApply, hget, hp, hadv]
        exact ⟨by intro c; simp, ⟨{ w with pc := .dropped },
          list_get_set_self _ _ _ _ hget, hlt, Or.inr (Or.inr (Or.inr rfl))⟩⟩
      · simp only [gridApply, hget, hp]
        exact ⟨by intro c; simp, ⟨w, rfl, hlt, Or.inr (Or.inr (Or.inr hp))⟩⟩
    · cases hj : s.workers.get? j with
      | none =>
        simp only [gridApply, hj]
        exact ⟨by intro c; simp, ⟨w, hget, hlt, hpc⟩⟩
      | some wj =>
        have hgetne : ∀ x, (s.workers.set j x).get? i = s.workers.get? i :=
          fun x => list_get_set_other _ _ _ _ (fun he => hij he.symm)
        cases hpcj : wj.pc with
        | entry =>
          simp only [gridApply, hj, hpcj]
          exact ⟨by intro c; simp, ⟨w, by rw [hgetne]; exact hget, hlt, hpc⟩⟩
        | beforeApi =>
          simp only [gridApply, hj, hpcj]
          exact ⟨by intro c; simp, ⟨w, by rw [hgetne]; exact hget, hlt, hpc⟩⟩
        | afterApi =>
          simp only [gridApply, hj, hpcj]
          exact ⟨by intro c; simp, ⟨w, by rw [hgetne]; exact hget, hlt, hpc⟩⟩
        | ready =>
          simp only [gridApply, hj, hpcj]
          refine ⟨?_, ⟨w, by rw [hgetne]; exact hget, hlt, hpc⟩⟩
          intro c hmem
          simp only [List.mem_singleton, GridEvent.publish.injEq] at hmem
          exact hij hmem.1.symm
        | published =>
          simp only [gridApply, hj, hpcj]
          exact ⟨by intro c; simp, ⟨w, hget, hlt, hpc⟩⟩
        | dropped =>
          simp only [gridApply, hj, hpcj]
          exact ⟨by intro c; simp, ⟨w, hget, hlt, hpc⟩⟩

theorem gridRun_no_stale_publish : ∀ (acts : List GridAct) (s : GridState) (i : Nat) (w : Worker),
    s.workers.get? i = some w →
    w.captured < s.batchId →
    (w.pc = .entry ∨ w.pc = .beforeApi ∨ w.pc = .afterApi ∨ w.pc = .dropped) →
    ∀ c, GridEvent.publish i c ∉ (gridRun s acts).2 := by
  intro acts
  induction acts with
  | nil => intro s i w _ _ _ c; simp [gridRun]
  | cons a rest ih =>
    intro s i w hget hlt hpc c hmem
    obtain ⟨hev, w', hget', hlt', hpc'⟩ := gridStep_preserves s a i w hget hlt hpc
    simp only [gridRun] at hmem
    rcases List.mem_append.mp hmem with h | h
    · exact hev c h
    · exact ih (gridApply s a).1 i w' hget' hlt' hpc' c h

/-! ## Claim C8, amended -/

/-- C8 amended: `load_videos` increments the batch id before dispatching
its jobs; a worker holding an older id fails its next checkpoint
comparison and is dropped; and a first-batch worker that has not yet
passed its final (post-fetch) checkpoint when a later `load_videos` runs
never invokes the publish sink.  (A worker already past that checkpoint
may still publish — see the counterexample.) -/
theorem c8_cancellation_guarantee :
    (∀ (s : GridState) (n : Nat), (gridApply s (.loadAll n)).1.batchId = s.batchId + 1) ∧
    (∀ (cur : Nat) (w : Worker) (next : WPc), w.captured ≠ cur →
      checkAdvance cur w next = { w with pc := .dropped }) ∧
    (∀ (s : GridState) (acts : List GridAct) (i : Nat) (w : Worker),
      s.workers.get? i = some w →
      w.captured < s.batchId →
      (w.pc = .entry ∨ w.pc = .beforeApi ∨ w.pc = .afterApi ∨ w.pc = .dropped) →
      ∀ c, GridEvent.publish i c ∉ (gridRun s acts).2) := by
  refine ⟨fun s n => rfl, ?_, ?_⟩
  · intro cur w next hne
    unfold checkAdvance
    rw [if_neg hne]
  · intro s acts i w hget hlt hpc c
    exact gridRun_no_stale_publish acts s i w hget hlt hpc c

/-- Closed instance of `c8_cancellation_guarantee`: a worker of batch 1
still at its entry checkpoint after a second load never publishes under
any remaining schedule step here. -/
theorem c8_cancellation_guarantee_witness :
    ∀ c, GridEvent.publish 0 c ∉
      (gridRun { batchId := 2, workers := [{ captured := 1, pc := .entry }] }
        [.wstep 0, .wstep 0]).2 := by
  intro c
  exact c8_cancellation_guarantee.2.2
    { batchId := 2, workers := [{ captured := 1, pc := .entry }] }
    [.wstep 0, .wstep 0] 0 { captured := 1, pc := .entry }
    (by decide) (by decide) (by simp) c

/-! ## Claim C10, amended -/

/-- C10 amended: a born-completed task is never added to the queue — the
queue, every `queueStatus` count, and `clearCompleted`'s effect are
unchanged by the call — and `removeFromQueue` on it returns `false`
provided no task already in the queue is field-for-field equal to it
(Python's `in`/`remove` compare dataclass values; the counterexample
shows an equal queue entry flips the result). -/
theorem c10_born_completed_frame (s : DMState) (v : VideoFile)
    (hexists : s.fs.contains (localPathFor s v) = true) :
    (addToQueue s v).1.queue = s.queue ∧
    getQueueStatus (addToQueue s v).1 = getQueueStatus s ∧
    (clearCompleted (addToQueue s v).1).1.queue = (clearCompleted s).1.queue ∧
    ((addToQueue s v).2 ∉ s.queue →
      removeFromQueue (addToQueue s v).1 (addToQueue s v).2 = ((addToQueue s v).1, false)) := by
  have hmem : localPathFor s v ∈ s.fs := by simpa using hexists
  have hq : (addToQueue s v).1.queue = s.queue := by simp [addToQueue, hmem]
  refine ⟨hq, ?_, ?_, ?_⟩
  · unfold getQueueStatus
    rw [hq]
  · unfold clearCompleted
    rw [hq]
  · intro hnot
    have hstat : (addToQueue s v).2.status = "completed" := by simp [addToQueue, hmem]
    have h1 : ((addToQueue s v).2.status == "downloading") = false := by
      rw [hstat]
      rfl
    have h2 : (addToQueue s v).1.queue.contains (addToQueue s v).2 = false := by
      rw [hq]
      simpa using hnot
    unfold removeFromQueue
    rw [h1, h2]
    rfl

/-- Closed instance of `c10_born_completed_frame`: with an empty queue
the call leaves the queue empty and `removeFromQueue` refuses. -/
theorem c10_born_completed_frame_witness :
    (addToQueue stateWithFile sampleVideo).1.queue = stateWithFile.queue ∧
    removeFromQueue (addToQueue stateWithFile sampleVideo).1
        (addToQueue stateWithFile sampleVideo).2 =
      ((addToQueue stateWithFile sampleVideo).1, false) :=
  ⟨(c10_born_completed_frame stateWithFile sampleVideo (by decide)).1,
   (c10_born_completed_frame stateWithFile sampleVideo (by decide)).2.2.2
     (by simp [stateWithFile, initState])⟩

end DashcamManager
